import Mathlib

/-
Verification development for the reservation-table normalization and
calendar delta-sync engine of the rooms repository
(rooms_sync_google.py / rooms_push_google.py).

Timestamps are modelled as `Int` seconds since the Unix epoch (UTC).
Timezone-aware pandas Timestamps in the local zone Europe/Zurich are
modelled by explicit conversion functions below (EU daylight-saving
rules: CEST between the last Sunday of March 01:00 UTC and the last
Sunday of October 01:00 UTC, offsets +02:00 / +01:00).
-/

/-! ### Character and list helpers (Python str semantics) -/

def hasDigitS (s : String) : Bool := s.data.any Char.isDigit

/-- Python `str.isalpha`: nonempty and all alphabetic. -/
def isAlphaStr (s : String) : Bool := !s.data.isEmpty && s.data.all Char.isAlpha

/-- Python `str.strip()` on a char list. -/
def pyStrip (l : List Char) : List Char :=
  ((l.dropWhile Char.isWhitespace).reverse.dropWhile Char.isWhitespace).reverse

/-- Python `str.split()` (split on whitespace runs, dropping empties); accumulator form. -/
def pySplitGo : List Char → List Char → List String
  | [], acc => if acc.isEmpty then [] else [⟨acc.reverse⟩]
  | c :: cs, acc =>
    if c.isWhitespace then
      if acc.isEmpty then pySplitGo cs [] else ⟨acc.reverse⟩ :: pySplitGo cs []
    else pySplitGo cs (c :: acc)

def pySplitWs (l : List Char) : List String := pySplitGo l []

/-- Does `hay` start with `needle`? -/
def startsWithL : List Char → List Char → Bool
  | [], _ => true
  | _ :: _, [] => false
  | a :: as, b :: bs => a == b && startsWithL as bs

/-- Python `needle in hay` substring test. -/
def containsSub (needle : List Char) : List Char → Bool
  | [] => needle.isEmpty
  | c :: cs => startsWithL needle (c :: cs) || containsSub needle cs

/-- Strict lexicographic order on char lists (codepoint order). -/
def lexLtChars : List Char → List Char → Bool
  | [], [] => false
  | [], _ :: _ => true
  | _ :: _, [] => false
  | a :: as, b :: bs => if a < b then true else if b < a then false else lexLtChars as bs

/-- Stable insertion into a sorted list: `x` goes before the first element it is `le` to. -/
def insertSorted (le : α → α → Bool) (x : α) : List α → List α
  | [] => [x]
  | y :: ys => if le x y then x :: y :: ys else y :: insertSorted le x ys

/-- Stable sort (models pandas/Python stable sorting by key). -/
def pySort (le : α → α → Bool) (l : List α) : List α :=
  l.foldr (insertSorted le) []

/-! ### Proleptic Gregorian calendar arithmetic (Howard Hinnant's algorithms,
    with floor division `Int.ediv`). -/

/-- Day number (days since 1970-01-01) of a civil date. -/
def daysFromCivil (y m d : Int) : Int :=
  let y2 := if m ≤ 2 then y - 1 else y
  let era := y2.ediv 400
  let yoe := y2 - era * 400
  let mp := if m ≤ 2 then m + 9 else m - 3
  let doy := (153 * mp + 2).ediv 5 + d - 1
  let doe := yoe * 365 + yoe.ediv 4 - yoe.ediv 100 + doy
  era * 146097 + doe - 719468

/-- Civil date `(y, m, d)` of a day number. -/
def civilFromDays (z0 : Int) : Int × Int × Int :=
  let z := z0 + 719468
  let era := z.ediv 146097
  let doe := z - era * 146097
  let yoe := (doe - doe.ediv 1460 + doe.ediv 36524 - doe.ediv 146096).ediv 365
  let y2 := yoe + era * 400
  let doy := doe - (365 * yoe + yoe.ediv 4 - yoe.ediv 100)
  let mp := (5 * doy + 2).ediv 153
  let d := doy - (153 * mp + 2).ediv 5 + 1
  let m := if mp < 10 then mp + 3 else mp - 9
  (if m ≤ 2 then y2 + 1 else y2, m, d)

/-- Day number of the last Sunday of month `m` (March or October: 31 days) in year `y`. -/
def lastSundayDays (y m : Int) : Int :=
  let z := daysFromCivil y m 31
  z - (z + 4).emod 7

/-- Is the UTC instant `t` (seconds) inside the Europe/Zurich DST period of its year? -/
def inDST (t : Int) : Bool :=
  let y := (civilFromDays (t.ediv 86400)).1
  lastSundayDays y 3 * 86400 + 3600 ≤ t && t < lastSundayDays y 10 * 86400 + 3600

/-- UTC offset (seconds) of Europe/Zurich at the UTC instant `t`. -/
def offsetAt (t : Int) : Int := if inDST t then 7200 else 3600

/-- Localize naive local wall-clock seconds `w` to a UTC instant
    (dateutil `fold=0` semantics: ambiguous times resolve to CEST). -/
def localize (w : Int) : Int :=
  if inDST (w - 7200) then w - 7200 else w - 3600

/-- `pd.Timestamp(y, m, d, hh, mi, ss, tzinfo=Europe/Zurich)` as a UTC instant. -/
def mkZurich (y m d hh mi ss : Int) : Int :=
  localize (daysFromCivil y m d * 86400 + hh * 3600 + mi * 60 + ss)

/-- Local wall-clock seconds of a UTC instant. -/
def wallOf (t : Int) : Int := t + offsetAt t

/-- Civil date of the local wall clock at instant `t` (`.year`, `.month`, `.day`). -/
def wallCivil (t : Int) : Int × Int × Int := civilFromDays ((wallOf t).ediv 86400)

/-- `Timestamp.replace(hour=hh, minute=mi, second=ss)` on a Zurich-aware instant. -/
def replace_hms (t hh mi ss : Int) : Int :=
  localize ((wallOf t).ediv 86400 * 86400 + hh * 3600 + mi * 60 + ss)

/-! ### isoformat -/

def pad2 (n : Nat) : List Char := [Nat.digitChar (n / 10 % 10), Nat.digitChar (n % 10)]

def pad4 (n : Nat) : List Char :=
  [Nat.digitChar (n / 1000 % 10), Nat.digitChar (n / 100 % 10),
   Nat.digitChar (n / 10 % 10), Nat.digitChar (n % 10)]

/-- `Timestamp.isoformat()` of a Zurich-aware instant, as a char list:
    `YYYY-MM-DDTHH:MM:SS+01:00` or `...+02:00`. -/
def isoChars (t : Int) : List Char :=
  let off := offsetAt t
  let w := t + off
  let c := civilFromDays (w.ediv 86400)
  let sod := (w.emod 86400).toNat
  pad4 c.1.toNat ++ '-' :: pad2 c.2.1.toNat ++ '-' :: pad2 c.2.2.toNat ++
    'T' :: pad2 (sod / 3600) ++ ':' :: pad2 (sod / 60 % 60) ++ ':' :: pad2 (sod % 60) ++
    (if off == 7200 then ['+', '0', '2', ':', '0', '0'] else ['+', '0', '1', ':', '0', '0'])

def isoformat (t : Int) : String := ⟨isoChars t⟩

/-! ### compute_window_days_7 (rooms_sync_google.py) -/

/-- `compute_window_days_7`, parameterized by today's civil date:
    `today` midnight local → `(start, end)` where `end` is
    `(today + 7 days).replace(hour=23, minute=59, second=59)`
    (the 7-day addition is absolute 168 h, per pandas `Timedelta`). -/
def compute_window_days_7 (ty tm td : Int) : Int × Int :=
  let today := localize (daysFromCivil ty tm td * 86400)
  let start := replace_hms today 0 0 0
  let endd := replace_hms (today + 7 * 86400) 23 59 59
  (start, endd)

/-! ### extract_room_code (rooms_sync_google.py) -/

/-- `extract_room_code`: room-code token extraction from a room label. -/
def extract_room_code (raum : String) : String :=
  let s := pyStrip raum.data
  if s.isEmpty then "" else
  match pySplitWs s with
  | [] => ""
  | t0 :: rest =>
    if hasDigitS t0 then
      if rest.length ≥ 1 && (t0.length ≤ 2 && isAlphaStr t0) && hasDigitS (rest.getD 0 "") then
        t0 ++ " " ++ rest.getD 0 ""
      else t0
    else
      if rest.length ≥ 1 && hasDigitS (rest.getD 0 "") then t0 ++ " " ++ rest.getD 0 ""
      else t0

/-- The claim's wording of room-code extraction (refinement reference):
    first token if it contains a digit (joined with the second token when the
    first token is a short alphabetic prefix of at most two letters and the
    second token contains a digit); else the first two tokens joined if the
    second token contains a digit; else the first token alone; empty label
    gives the empty string. -/
def roomCodeClaim (s : String) : String :=
  match pySplitWs (pyStrip s.data) with
  | [] => ""
  | t0 :: rest =>
    if hasDigitS t0 then
      match rest with
      | t1 :: _ => if t0.length ≤ 2 && isAlphaStr t0 && hasDigitS t1 then t0 ++ " " ++ t1 else t0
      | [] => t0
    else
      match rest with
      | t1 :: _ => if hasDigitS t1 then t0 ++ " " ++ t1 else t0
      | [] => t0

/-! ### SHA-1 (hashlib.sha1, hex digest), over Nat arithmetic mod 2^32 -/

def w32 (n : Nat) : Nat := n % 4294967296

/-- Rotate a 32-bit word left by `s` bits (valid for `n < 2^32`, `s < 32`). -/
def rotl32 (s n : Nat) : Nat := (n * 2 ^ s) % 4294967296 + n / 2 ^ (32 - s)

def not32 (n : Nat) : Nat := 4294967295 - n

/-- UTF-8 bytes of a Unicode code point. -/
def utf8Bytes (c : Nat) : List Nat :=
  if c < 128 then [c]
  else if c < 2048 then [192 + c / 64, 128 + c % 64]
  else if c < 65536 then [224 + c / 4096, 128 + c / 64 % 64, 128 + c % 64]
  else [240 + c / 262144, 128 + c / 4096 % 64, 128 + c / 64 % 64, 128 + c % 64]

def strBytes (s : String) : List Nat := (s.data.map (fun ch => utf8Bytes ch.toNat)).flatten

/-- SHA-1 message padding: append 0x80, zero bytes, and the 64-bit big-endian
    bit length so the total length is a multiple of 64. -/
def sha1pad (msg : List Nat) : List Nat :=
  let ml := msg.length * 8
  let zeros := (55 + 64 - msg.length % 64) % 64
  msg ++ 128 :: List.replicate zeros 0 ++
    [ml / 2 ^ 56 % 256, ml / 2 ^ 48 % 256, ml / 2 ^ 40 % 256, ml / 2 ^ 32 % 256,
     ml / 2 ^ 24 % 256, ml / 2 ^ 16 % 256, ml / 2 ^ 8 % 256, ml % 256]

/-- Big-endian 32-bit words from bytes. -/
def bytesToWords : List Nat → List Nat
  | b0 :: b1 :: b2 :: b3 :: rest => (b0 * 16777216 + b1 * 65536 + b2 * 256 + b3) :: bytesToWords rest
  | _ => []

/-- Extend 16 words to 80 words: appends `rotl1 (w[i-3] xor w[i-8] xor w[i-14] xor w[i-16])`. -/
def sha1expand (w : List Nat) : Nat → List Nat
  | 0 => w
  | k + 1 =>
    let n := w.length
    sha1expand (w ++ [rotl32 1 (((w.getD (n - 3) 0) ^^^ (w.getD (n - 8) 0)) ^^^
      ((w.getD (n - 14) 0) ^^^ (w.getD (n - 16) 0)))]) k

/-- Round function and constant for round `i`. -/
def sha1f (i b c d : Nat) : Nat :=
  if i < 20 then (b &&& c) ||| (not32 b &&& d)
  else if i < 40 then (b ^^^ c) ^^^ d
  else if i < 60 then (b &&& c) ||| (b &&& d) ||| (c &&& d)
  else (b ^^^ c) ^^^ d

def sha1k (i : Nat) : Nat :=
  if i < 20 then 1518500249
  else if i < 40 then 1859775393
  else if i < 60 then 2400959708
  else 3395469782

/-- One 64-byte chunk: run 80 rounds starting from hash state `(h0..h4)`. -/
def sha1chunk (h : Nat × Nat × Nat × Nat × Nat) (chunk : List Nat) : Nat × Nat × Nat × Nat × Nat :=
  let w := sha1expand (bytesToWords chunk) 64
  let st := (List.range 80).foldl
    (fun (s : Nat × Nat × Nat × Nat × Nat) i =>
      let a := s.1; let b := s.2.1; let c := s.2.2.1; let d := s.2.2.2.1; let e := s.2.2.2.2
      let tmp := w32 (rotl32 5 a + sha1f i b c d + e + sha1k i + w.getD i 0)
      (tmp, a, rotl32 30 b, c, d))
    (h.1, h.2.1, h.2.2.1, h.2.2.2.1, h.2.2.2.2)
  (w32 (h.1 + st.1), w32 (h.2.1 + st.2.1), w32 (h.2.2.1 + st.2.2.1),
   w32 (h.2.2.2.1 + st.2.2.2.1), w32 (h.2.2.2.2 + st.2.2.2.2))

/-- Process the padded message chunk by chunk (fuel-bounded; the fuel passed by
    `sha1hex` exceeds the chunk count, so the guard `[]` always ends the loop). -/
def sha1chunks (h : Nat × Nat × Nat × Nat × Nat) (bytes : List Nat) : Nat → Nat × Nat × Nat × Nat × Nat
  | 0 => h
  | fuel + 1 =>
    match bytes with
    | [] => h
    | _ => sha1chunks (sha1chunk h (bytes.take 64)) (bytes.drop 64) fuel

def toHex8 (n : Nat) : List Char :=
  (List.range 8).map (fun i => Nat.digitChar (n / 2 ^ (4 * (7 - i)) % 16))

/-- `hashlib.sha1(s.encode("utf-8")).hexdigest()`. -/
def sha1hex (s : String) : String :=
  let padded := sha1pad (strBytes s)
  let d := sha1chunks (1732584193, 4023233417, 2562383102, 271733878, 3285377520)
    padded padded.length
  ⟨toHex8 d.1 ++ toHex8 d.2.1 ++ toHex8 d.2.2.1 ++ toHex8 d.2.2.2.1 ++ toHex8 d.2.2.2.2⟩

/-! ### Canonical rows and the fingerprint (rooms_sync_google.py) -/

/-- A normalized reservation row (columns Von, Bis, Raum, Standort, Raumcode of
    the normalized DataFrame). `Von`/`Bis` are Zurich-aware instants. -/
structure CanonicalRow where
  Von : Int
  Bis : Int
  Raum : String
  Standort : String
  Raumcode : String
deriving DecidableEq

def SOURCE_TAG : String := "bfh-rooms-sync"

/-- The serialized base string of `fingerprint`:
    `f"{row['Von'].isoformat()}|{row['Bis'].isoformat()}|{row.get('Raum','')}|{row.get('Standort','')}"`. -/
def fingerprint_base (r : CanonicalRow) : String :=
  isoformat r.Von ++ "|" ++ isoformat r.Bis ++ "|" ++ r.Raum ++ "|" ++ r.Standort

/-- `fingerprint(row)`: SHA-1 hex digest of the serialized base string. -/
def fingerprint (r : CanonicalRow) : String := sha1hex (fingerprint_base r)

/-! ### Row ordering (pandas sort_values by ["Von", "Raum"], stable model) -/

def rowLe (r1 r2 : CanonicalRow) : Bool :=
  if r1.Von < r2.Von then true
  else if r2.Von < r1.Von then false
  else if lexLtChars r1.Raum.data r2.Raum.data then true
  else if lexLtChars r2.Raum.data r1.Raum.data then false
  else true

/-! ### chunk_to_days_6_22 (rooms_sync_google.py) -/

/-- The `while cur_day <= last_day` loop of `chunk_to_days_6_22`: build the
    day band 06:00-22:00 from `cur_day`'s local civil date, emit the non-empty
    intersection with `[st, en]`, then advance `cur_day` by an absolute day
    (`pd.Timedelta(days=1)` on a tz-aware timestamp adds 86400 s).
    Fuel-bounded; callers pass fuel exceeding the iteration count, so the
    `cur_day ≤ last_day` guard always ends the loop. -/
def chunk_loop (st en : Int) (r : CanonicalRow) (last_day : Int) (cur_day : Int) :
    Nat → List CanonicalRow
  | 0 => []
  | fuel + 1 =>
    if cur_day ≤ last_day then
      let c := wallCivil cur_day
      let d_start := mkZurich c.1 c.2.1 c.2.2 6 0 0
      let d_end := mkZurich c.1 c.2.1 c.2.2 22 0 0
      let s := max st d_start
      let e := min en d_end
      (if s < e then [{ r with Von := s, Bis := e }] else []) ++
        chunk_loop st en r last_day (cur_day + 86400) fuel
    else []

/-- `chunk_to_days_6_22`, parameterized by today's civil date (the source
    computes the window from `date.today()`). Clips each row to the 7-day
    window, splits it into per-day 06:00-22:00 slices, and re-sorts by
    (Von, Raum). -/
def chunk_to_days_6_22 (ty tm td : Int) (rows : List CanonicalRow) : List CanonicalRow :=
  let w := compute_window_days_7 ty tm td
  let out := rows.foldr
    (fun r acc =>
      let st := max r.Von w.1
      let en := min r.Bis w.2
      if en ≤ st then acc
      else
        let cs := wallCivil st
        let ce := wallCivil en
        let cur_day := mkZurich cs.1 cs.2.1 cs.2.2 0 0 0
        let last_day := mkZurich ce.1 ce.2.1 ce.2.2 0 0 0
        chunk_loop st en r last_day cur_day ((last_day + 86400 - cur_day).toNat / 86400 + 2) ++ acc)
    []
  pySort rowLe out

/-! ### Raw DataFrame model and normalize_to_room_times (rooms_sync_google.py)

The raw batch is a DataFrame: column labels plus string cell rows.
`pd.to_datetime(s, dayfirst=True, errors="coerce")` and the two content
regexes (`room_pat`, `addr_pat`) are modelled as parameters (`ParseEnv`):
the claims settled here hold for every instantiation, in particular for
the real pandas parser and regex engine. `toDT` returns naive local
wall-clock seconds (`None` for unparseable), as those cell formats carry
no UTC offset. -/

structure DF where
  cols : List String
  rows : List (List String)

structure ParseEnv where
  toDT : String → Option Int
  roomPat : String → Bool
  sitePat : String → Bool

/-- Column-name cleanup: replace NBSP/thin space, strip, lowercase. -/
def clean_col (s : String) : String :=
  ⟨(pyStrip (s.data.map (fun c => if c = ' ' || c = ' ' then ' ' else c))).map
    Char.toLower⟩

/-- `find_col`: first column whose (cleaned) name contains one of the keys,
    keys tried in order. -/
def find_col : List String → List String → Option String
  | [], _ => none
  | k :: ks, cols =>
    match cols.find? (fun c => containsSub k.data c.data) with
    | some c => some c
    | none => find_col ks cols

/-- Cell values of the first column named `name` (empty cells for missing). -/
def getCol (df : DF) (name : String) : List String :=
  match df.cols.findIdx? (fun c => c == name) with
  | some i => df.rows.map (fun r => r.getD i "")
  | none => df.rows.map (fun _ => "")

/-- Weekday-prefix removal `^[A-Za-zÄÖÜäöüß]+\s*,\s*` (normalize variant). -/
def strip_weekday_n (l : List Char) : List Char :=
  let letters := l.takeWhile (fun c => c.isAlpha || c ∈ ['ä', 'ö', 'ü', 'Ä', 'Ö', 'Ü', 'ß'])
  if letters.isEmpty then l
  else
    match (l.drop letters.length).dropWhile Char.isWhitespace with
    | ',' :: tail => tail.dropWhile Char.isWhitespace
    | _ => l

/-- Weekday-prefix removal `^[A-Za-zäöüÄÖÜß]+,\s*` (content-guess variant:
    the comma must directly follow the letters). -/
def strip_weekday_g (l : List Char) : List Char :=
  let letters := l.takeWhile (fun c => c.isAlpha || c ∈ ['ä', 'ö', 'ü', 'Ä', 'Ö', 'Ü', 'ß'])
  if letters.isEmpty then l
  else
    match l.drop letters.length with
    | ',' :: tail => tail.dropWhile Char.isWhitespace
    | _ => l

/-- Remove every occurrence of `pat` (Python `str.replace(pat, "")`);
    fuel-bounded by the list length. -/
def remove_sub (pat : List Char) : Nat → List Char → List Char
  | 0, l => l
  | _ + 1, [] => []
  | fuel + 1, c :: cs =>
    if !pat.isEmpty && startsWithL pat (c :: cs) then
      remove_sub pat fuel ((c :: cs).drop pat.length)
    else c :: remove_sub pat fuel cs

/-- Collapse whitespace runs to a single space (`re.sub(r"\s+", " ", s)`). -/
def collapse_go : Bool → List Char → List Char
  | _, [] => []
  | prevWs, c :: cs =>
    if c.isWhitespace then
      if prevWs then collapse_go true cs else ' ' :: collapse_go true cs
    else c :: collapse_go false cs

/-- `try_parse_dt` of `normalize_to_room_times`: NBSP/thin-space cleanup, strip,
    weekday-prefix removal, drop " Uhr", commas to spaces, collapse whitespace,
    then day-first parse. -/
def try_parse_n (P : ParseEnv) (x : String) : Option Int :=
  let s0 := x.data.map (fun c => if c = ' ' || c = ' ' then ' ' else c)
  let s1 := pyStrip s0
  let s2 := strip_weekday_n s1
  let s3 := remove_sub " Uhr".data s2.length s2
  let s4 := s3.map (fun c => if c = ',' then ' ' else c)
  let s5 := collapse_go false s4
  P.toDT ⟨s5⟩

/-- `try_parse_dt` of `_guess_cols_by_content`: strip, commas to spaces,
    weekday-prefix removal, then day-first parse. -/
def try_parse_g (P : ParseEnv) (x : String) : Option Int :=
  let s1 := pyStrip x.data
  let s2 := s1.map (fun c => if c = ',' then ' ' else c)
  let s3 := strip_weekday_g s2
  P.toDT ⟨s3⟩

/-- `mean >= num/den` over `n` sampled values with `succ` successes
    (`NaN >= t` is false for an empty sample). -/
def mean_ge (succ n num den : Nat) : Bool := n ≠ 0 && den * succ ≥ num * n

/-- Stable descending sort of (column, score) pairs by score
    (Python `sorted(..., key=score, reverse=True)` is stable). -/
def sortScoresDesc (l : List (String × Nat)) : List (String × Nat) :=
  pySort (fun a b => b.2 ≤ a.2) l

/-- `_guess_cols_by_content`: content-based inference of the
    (start, end, room, site) columns from the first 80 rows. -/
def guess_cols_by_content (P : ParseEnv) (df : DF) :
    Option String × Option String × Option String × Option String :=
  let sample : DF := ⟨df.cols, df.rows.take 80⟩
  let n := sample.rows.length
  let dtScores := df.cols.map
    (fun c => (c, (getCol sample c).countP (fun cell => (try_parse_g P cell).isSome)))
  let dt_sorted := ((sortScoresDesc dtScores).filter (fun p => mean_ge p.2 n 3 5)).map (·.1)
  let col_von := dt_sorted.getD 0 ""
  let col_bis := dt_sorted.getD 1 ""
  let roomScores := df.cols.map
    (fun c => (c, (getCol sample c).countP (fun cell => P.roomPat cell)))
  let cand_room := ((sortScoresDesc roomScores).filter (fun p => mean_ge p.2 n 2 5)).map (·.1)
  let col_raum :=
    match cand_room with
    | c :: _ => some c
    | [] =>
      if df.cols.length > 6 then df.cols.get? 6
      else if df.cols.length > 3 then df.cols.get? 3
      else none
  let siteScores := df.cols.map
    (fun c => (c, (getCol sample c).countP
      (fun cell => containsSub " - ".data cell.data || P.sitePat cell)))
  let cand_site := ((sortScoresDesc siteScores).filter (fun p => mean_ge p.2 n 2 5)).map (·.1)
  ((if dt_sorted.length ≥ 1 then some col_von else none),
   (if dt_sorted.length ≥ 2 then some col_bis else none),
   col_raum,
   cand_site.head?)

def lowerStr (s : String) : String := ⟨s.data.map Char.toLower⟩

/-- Alias pass of the column-role resolution (operates on cleaned names). -/
def alias_cols (cols : List String) :
    Option String × Option String × Option String × Option String :=
  (find_col ["von", "beginn", "start"] cols,
   find_col ["bis", "ende", "end"] cols,
   find_col ["ressource bezeichnung", "ressourcen id/bezeichnung", "raum", "ressource",
     "resource"] cols,
   find_col ["standortbezeichnung", "standort", "adresse", "strasse"] cols)

/-- The guard `not (col_von and col_bis and col_raum)` deciding whether
    `_guess_cols_by_content` is invoked. -/
def content_invoked (df : DF) : Bool :=
  let a := alias_cols df.cols
  !(a.1.isSome && a.2.1.isSome && a.2.2.1.isSome)

/-- Column-role resolution of `normalize_to_room_times` on the cleaned
    DataFrame: alias pass, content-based pass for still-missing roles, then
    positional fallback (columns 1 / 2 / 6 / 13). -/
def resolve_cols (P : ParseEnv) (df : DF) :
    Option String × Option String × Option String × Option String :=
  let a := alias_cols df.cols
  let b :=
    if a.1.isSome && a.2.1.isSome && a.2.2.1.isSome then a
    else
      let g := guess_cols_by_content P df
      (a.1 <|> g.1.map lowerStr, a.2.1 <|> g.2.1.map lowerStr,
       a.2.2.1 <|> g.2.2.1.map lowerStr, a.2.2.2 <|> g.2.2.2.map lowerStr)
  (b.1 <|> df.cols.get? 1, b.2.1 <|> df.cols.get? 2,
   b.2.2.1 <|> df.cols.get? 6, b.2.2.2 <|> df.cols.get? 13)

def cleanDF (df : DF) : DF := ⟨df.cols.map clean_col, df.rows⟩

def zip4 : List α → List β → List γ → List δ → List (α × β × γ × δ)
  | a :: as, b :: bs, c :: cs, d :: ds => (a, b, c, d) :: zip4 as bs cs ds
  | _, _, _, _ => []

/-- `normalize_to_room_times`, parameterized by the parser environment and
    today's civil date: clean column names, resolve roles (returning the empty
    row-set when Von/Bis/Raum cannot all be resolved), parse and filter rows
    (valid times, Bis > Von), localize to Europe/Zurich, keep rows intersecting
    the 7-day window, derive Raumcode, sort by (Von, Raum). Total: parse
    failures yield dropped rows, never an exception (`errors="coerce"`). -/
def normalize_to_room_times (P : ParseEnv) (ty tm td : Int) (df0 : DF) : List CanonicalRow :=
  let df := cleanDF df0
  let rc := resolve_cols P df
  match rc.1, rc.2.1, rc.2.2.1 with
  | some cv, some cb, some cr =>
    let von := (getCol df cv).map (try_parse_n P)
    let bis := (getCol df cb).map (try_parse_n P)
    let raum := getCol df cr
    let site :=
      match rc.2.2.2 with
      | some cst => getCol df cst
      | none => df.rows.map (fun _ => "")
    let kept := (zip4 von bis raum site).filterMap (fun q =>
      match q.1, q.2.1 with
      | some v, some b => if v < b then some (v, b, q.2.2.1, q.2.2.2) else none
      | _, _ => none)
    let loc := kept.map (fun q =>
      CanonicalRow.mk (localize q.1) (localize q.2.1) q.2.2.1 q.2.2.2 "")
    let w := compute_window_days_7 ty tm td
    let inside := loc.filter (fun r => r.Von ≤ w.2 && w.1 ≤ r.Bis)
    if inside.isEmpty then []
    else pySort rowLe (inside.map (fun r => { r with Raumcode := extract_room_code r.Raum }))
  | _, _, _ => []

/-! ### Google Calendar model and the reconciliation runs
    (delete_future_own_events + push_events, rooms_sync_google.py).

A remote event carries an id, the private metadata (`source`, `fp`) and its
time range as instants. `events.list(timeMin, timeMax)` returns events with
`end > timeMin` and `start < timeMax`. Request failures are modelled by an
oracle `fail` (request index ↦ does `.execute()` raise); a raised exception
propagates, which `push_go` models by returning `.error` with the events
inserted so far and the log of requests issued so far. -/

structure GEvent where
  eid : Nat
  src : Option String
  fp : String
  estart : Int
  eend : Int
deriving DecidableEq

/-- Events returned by the horizon-limited `events.list` fetch. -/
def fetch_window (now horizon_days : Int) (evs : List GEvent) : List GEvent :=
  evs.filter (fun e => now < e.eend && e.estart < now + horizon_days * 86400)

/-- `delete_future_own_events`: fetch all events in `[now, now + horizon_days]`,
    collect those whose private `source` equals `SOURCE_TAG`, delete each.
    Returns the new calendar state and the list of issued delete requests. -/
def delete_future_own_events (now horizon_days : Int) (evs : List GEvent) :
    List GEvent × List Nat :=
  let to_delete := ((fetch_window now horizon_days evs).filter
    (fun e => e.src == some SOURCE_TAG)).map (·.eid)
  (evs.filter (fun e => !(to_delete.contains e.eid)), to_delete)

/-- The event body built by `push_events` for one row (the start/end instants
    of the rfc3339 rendering, private metadata `source`/`fp`). -/
def mkEvent (nid : Nat) (r : CanonicalRow) : GEvent :=
  ⟨nid, some SOURCE_TAG, fingerprint r, r.Von, r.Bis⟩

/-- The insert loop of `push_events`: one `events.insert(...).execute()` per
    row, sequentially; a raised exception aborts the remaining rows. -/
def push_go (fail : Nat → Bool) : Nat → Nat → List GEvent → List String → List CanonicalRow →
    Except (List GEvent × List String) (List GEvent × List String)
  | _, _, evs, log, [] => .ok (evs, log)
  | i, nid, evs, log, r :: rs =>
    if fail i then .error (evs, log ++ [fingerprint r])
    else push_go fail (i + 1) (nid + 1) (evs ++ [mkEvent nid r]) (log ++ [fingerprint r]) rs

/-- `push_events` over a calendar state, with fresh ids from `nid`. -/
def push_events (fail : Nat → Bool) (nid : Nat) (evs : List GEvent) (rows : List CanonicalRow) :
    Except (List GEvent × List String) (List GEvent × List String) :=
  push_go fail 0 nid evs [] rows

/-- The events created by an all-success push of `rows` with ids from `nid`. -/
def build_events : Nat → List CanonicalRow → List GEvent
  | _, [] => []
  | nid, r :: rs => mkEvent nid r :: build_events (nid + 1) rs

/-- One reconciliation run against a single calendar (the `split_by == "none"`
    path of `group_and_push_by_calendar`): `delete_future_own_events` with the
    8-day horizon, then `push_events`, all requests succeeding. Returns the new
    calendar state, the delete requests and the create requests (fingerprints). -/
def sync_run (now : Int) (nid : Nat) (evs : List GEvent) (rows : List CanonicalRow) :
    List GEvent × List Nat × List String :=
  let d := delete_future_own_events now 8 evs
  match push_events (fun _ => false) nid d.1 rows with
  | .ok (evs2, log) => (evs2, d.2, log)
  | .error (evs2, log) => (evs2, d.2, log)

/-! ### _calendar_name_for_bucket (rooms_sync_google.py) -/

def pyTake (n : Nat) (s : String) : String := ⟨s.data.take n⟩

/-- `_calendar_name_for_bucket`: `f"{base_name} - {bucket.strip()}"[:80]`. -/
def calendar_name_for_bucket (base_name bucket : String) : String :=
  pyTake 80 (base_name ++ " - " ++ ⟨pyStrip bucket.data⟩)

/-- Pandas-representable instant range used for fingerprint injectivity
    (pandas nanosecond timestamps cannot exceed year 2262; we use
    1970-01-01 .. 2262-01-01 ≈ 9.2e9 s). -/
abbrev tsRange (t : Int) : Prop := 0 ≤ t ∧ t ≤ 9200000000

/-! ### Concrete instances used by counterexamples and witnesses -/

/-- Trivial parser environment (nothing parses, no pattern matches). -/
def P0 : ParseEnv := ⟨fun _ => none, fun _ => false, fun _ => false⟩

/-- A batch with a single unresolvable column. -/
def df_c4 : DF := ⟨["x"], [["foo"], ["bar"]]⟩

def row_c1 : CanonicalRow :=
  ⟨mkZurich 2025 1 2 8 0 0, mkZurich 2025 1 2 10 0 0, "A 101", "Bern", "A 101"⟩

def now_c1 : Int := mkZurich 2025 1 1 12 0 0

/-- A machine-tagged remote event whose fingerprint equals `row_c1`'s. -/
def ev_c1 : GEvent := ⟨5, some "bfh-rooms-sync", fingerprint row_c1, row_c1.Von, row_c1.Bis⟩

def row_c2 : CanonicalRow :=
  ⟨mkZurich 2025 3 4 9 0 0, mkZurich 2025 3 4 11 0 0, "N10 Sitzungszimmer", "Biel", "N10"⟩

def now_c2 : Int := mkZurich 2025 3 3 12 0 0

def row_c3a : CanonicalRow := ⟨mkZurich 2025 1 1 8 0 0, mkZurich 2025 1 1 10 0 0, "a|x", "y", ""⟩

def row_c3b : CanonicalRow := ⟨mkZurich 2025 1 1 8 0 0, mkZurich 2025 1 1 10 0 0, "a", "x|y", ""⟩

def row_c3w : CanonicalRow :=
  ⟨mkZurich 2025 3 3 9 0 0, mkZurich 2025 3 3 11 0 0, "A 101", "Bern", "A 101"⟩

def row_c5a : CanonicalRow :=
  ⟨mkZurich 2025 5 5 8 0 0, mkZurich 2025 5 5 9 0 0, "A 101", "", "A 101"⟩

def row_c5b : CanonicalRow :=
  ⟨mkZurich 2025 5 5 10 0 0, mkZurich 2025 5 5 11 0 0, "B 202", "", "B 202"⟩

def ev_c9 : GEvent := ⟨1, some "bfh-rooms-sync", "f", 100, 200⟩

/-- Multi-day row crossing the 2025-10-26 DST fall-back (Europe/Zurich). -/
def row_c6 : CanonicalRow :=
  ⟨mkZurich 2025 10 26 10 0 0, mkZurich 2025 10 27 12 0 0, "A 101", "", "A 101"⟩

/-- The 2025-10-26 band intersection of `row_c6`. -/
def slice_c6 : CanonicalRow :=
  ⟨mkZurich 2025 10 26 10 0 0, mkZurich 2025 10 26 22 0 0, "A 101", "", "A 101"⟩

/-- The 2025-10-27 band intersection of `row_c6` (expected by the claim). -/
def slice_c6b : CanonicalRow :=
  ⟨mkZurich 2025 10 27 6 0 0, mkZurich 2025 10 27 12 0 0, "A 101", "", "A 101"⟩

def bucket_w1 : String :=
  "aaaaaaaaaaaaaaaaaaaaaaaaaaaaaaaaaaaaaaaaaaaaaaaaaaaaaaaaaaaaaaaaaaaaaaaaaaaaaaaaaaaaaaaa"

/-- The delete loop of `delete_future_own_events` with a request-failure
    oracle: one `events.delete(...).execute()` per collected id, sequentially;
    a raised exception propagates and aborts the remaining ids. Returns the
    calendar state and the ids of the delete requests issued so far. -/
def delete_go (fail : Nat → Bool) : Nat → List GEvent → List Nat → List Nat →
    Except (List GEvent × List Nat) (List GEvent × List Nat)
  | _, evs, log, [] => .ok (evs, log)
  | i, evs, log, eid :: rest =>
    if fail i then .error (evs, log ++ [eid])
    else delete_go fail (i + 1) (evs.filter (fun e => !(e.eid == eid))) (log ++ [eid]) rest

/-- Sequential removal of events by id: the server-side effect of the
    successful prefix of the delete loop. -/
def remove_ids (ids : List Nat) (evs : List GEvent) : List GEvent :=
  ids.foldl (fun acc eid => acc.filter (fun e => !(e.eid == eid))) evs

/-- `delete_future_own_events` with the failable delete loop: fetch the
    horizon, collect the tagged events' ids, then delete them one by one. -/
def delete_future_own_events_f (fail : Nat → Bool) (now horizon_days : Int)
    (evs : List GEvent) : Except (List GEvent × List Nat) (List GEvent × List Nat) :=
  delete_go fail 0 evs []
    (((fetch_window now horizon_days evs).filter
      (fun e => e.src == some SOURCE_TAG)).map (·.eid))

def row_c5c : CanonicalRow :=
  ⟨mkZurich 2025 5 5 12 0 0, mkZurich 2025 5 5 13 0 0, "C 303", "", "C 303"⟩

def ev_c5a : GEvent := ⟨11, some "bfh-rooms-sync", "f1", 100, 200⟩

def ev_c5b : GEvent := ⟨12, some "bfh-rooms-sync", "f2", 300, 400⟩

def ev_c5c : GEvent := ⟨13, some "bfh-rooms-sync", "f3", 500, 600⟩

def bucket_w2 : String :=
  "aaaaaaaaaaaaaaaaaaaaaaaaaaaaaaaaaaaaaaaaaaaaaaaaaaaaaaaaaaaaaaaaaaaaaaaaaaaaaaaaaaaaaaaaaaaaa"

/-! ## Theorems -/

/-! ### Arithmetic helpers -/

theorem ediv_pair (a : Int) (b : Int) (hb : 0 < b) :
    b * (a.ediv b) ≤ a ∧ a < b * (a.ediv b) + b := by
  have h1 : b * (a.ediv b) + a.emod b = a := Int.ediv_add_emod a b
  have h2 : 0 ≤ a.emod b := Int.emod_nonneg a (ne_of_gt hb)
  have h3 : a.emod b < b := Int.emod_lt_of_pos a hb
  constructor <;> linarith

set_option maxHeartbeats 16000000 in
/-- Hinnant's year-of-era / day-of-year bounds, fully linearized. -/
theorem central_bounds (doe q1 q2 q3 yoe a4 a100 : Int)
    (h0 : 0 ≤ doe) (h1 : doe < 146097)
    (hq1 : 1460 * q1 ≤ doe ∧ doe < 1460 * q1 + 1460)
    (hq2 : 36524 * q2 ≤ doe ∧ doe < 36524 * q2 + 36524)
    (hq3 : 146096 * q3 ≤ doe ∧ doe < 146096 * q3 + 146096)
    (hyoe : 365 * yoe ≤ doe - q1 + q2 - q3 ∧ doe - q1 + q2 - q3 < 365 * yoe + 365)
    (ha4 : 4 * a4 ≤ yoe ∧ yoe < 4 * a4 + 4)
    (ha100 : 100 * a100 ≤ yoe ∧ yoe < 100 * a100 + 100) :
    0 ≤ yoe ∧ yoe ≤ 399 ∧
    0 ≤ doe - (365 * yoe + a4 - a100) ∧ doe - (365 * yoe + a4 - a100) ≤ 365 := by
  have hb1 : 0 ≤ q1 ∧ q1 ≤ 100 := by omega
  have hb2 : 0 ≤ q2 ∧ q2 ≤ 4 := by omega
  have hb3 : 0 ≤ q3 ∧ q3 ≤ 1 := by omega
  have hkb : -1 ≤ yoe - 4 * q1 ∧ yoe - 4 * q1 ≤ 4 := by omega
  obtain ⟨k, hk, hk1, hk2⟩ : ∃ k, yoe = 4 * q1 + k ∧ -1 ≤ k ∧ k ≤ 4 :=
    ⟨yoe - 4 * q1, by ring, hkb.1, hkb.2⟩
  subst hk
  obtain ⟨hb2a, hb2b⟩ := hb2
  obtain ⟨hb3a, hb3b⟩ := hb3
  interval_cases k <;> interval_cases q3 <;> interval_cases q2 <;> omega

set_option maxHeartbeats 4000000 in
/-- `daysFromCivil` is a left inverse of `civilFromDays`. -/
theorem civil_roundtrip (z : Int) :
    daysFromCivil (civilFromDays z).1 (civilFromDays z).2.1 (civilFromDays z).2.2 = z := by
  simp only [civilFromDays, daysFromCivil]
  set z1 := z + 719468 with hz1
  have hA := ediv_pair z1 146097 (by norm_num)
  set era := z1.ediv 146097 with hera
  set doe := z1 - era * 146097 with hdoe
  have hB := ediv_pair doe 1460 (by norm_num)
  have hC := ediv_pair doe 36524 (by norm_num)
  have hD := ediv_pair doe 146096 (by norm_num)
  set q1 := doe.ediv 1460 with hq1
  set q2 := doe.ediv 36524 with hq2
  set q3 := doe.ediv 146096 with hq3
  have hE := ediv_pair (doe - q1 + q2 - q3) 365 (by norm_num)
  set yoe := (doe - q1 + q2 - q3).ediv 365 with hyoe
  have hF := ediv_pair yoe 4 (by norm_num)
  have hG := ediv_pair yoe 100 (by norm_num)
  set a4 := yoe.ediv 4 with ha4
  set a100 := yoe.ediv 100 with ha100
  set doy := doe - (365 * yoe + a4 - a100) with hdoy
  have hH := ediv_pair (5 * doy + 2) 153 (by norm_num)
  set mp := (5 * doy + 2).ediv 153 with hmp
  have hI := ediv_pair (153 * mp + 2) 5 (by norm_num)
  have hdoe0 : 0 ≤ doe ∧ doe < 146097 := by omega
  have hcen := central_bounds doe q1 q2 q3 yoe a4 a100 hdoe0.1 hdoe0.2 hB hC hD hE hF hG
  have hmpb : 0 ≤ mp ∧ mp ≤ 11 := by omega
  have hY1 := ediv_pair (yoe + era * 400) 400 (by norm_num)
  have hY2 := ediv_pair (yoe + era * 400 - (yoe + era * 400).ediv 400 * 400) 4 (by norm_num)
  have hY3 := ediv_pair (yoe + era * 400 - (yoe + era * 400).ediv 400 * 400) 100 (by norm_num)
  split_ifs with hc1 hc2 hc3
  · clear hA hB hC hD hE hF hG hH hI hY1 hY2 hY3 hcen hdoe0
    omega
  · clear hA hB hC hD hE hH hI hmpb hdoe0
    rw [show mp + 3 - 3 = mp from by ring]
    omega
  · clear hA hB hC hD hE hH hI hmpb hdoe0
    rw [show yoe + era * 400 + 1 - 1 = yoe + era * 400 from by ring,
        show mp - 9 + 9 = mp from by ring]
    omega
  · clear hA hB hC hD hE hF hG hH hI hY1 hY2 hY3 hcen hdoe0
    omega

set_option maxHeartbeats 4000000 in
/-- Field bounds of `civilFromDays` on the day range used by `tsRange`. -/
theorem civil_field_bounds (z : Int) (h0 : 0 ≤ z) (h1 : z ≤ 106500) :
    1600 ≤ (civilFromDays z).1 ∧ (civilFromDays z).1 ≤ 2400 ∧
    1 ≤ (civilFromDays z).2.1 ∧ (civilFromDays z).2.1 ≤ 12 ∧
    1 ≤ (civilFromDays z).2.2 ∧ (civilFromDays z).2.2 ≤ 31 := by
  simp only [civilFromDays]
  set z1 := z + 719468 with hz1
  have hA := ediv_pair z1 146097 (by norm_num)
  set era := z1.ediv 146097 with hera
  set doe := z1 - era * 146097 with hdoe
  have hB := ediv_pair doe 1460 (by norm_num)
  have hC := ediv_pair doe 36524 (by norm_num)
  have hD := ediv_pair doe 146096 (by norm_num)
  set q1 := doe.ediv 1460 with hq1
  set q2 := doe.ediv 36524 with hq2
  set q3 := doe.ediv 146096 with hq3
  have hE := ediv_pair (doe - q1 + q2 - q3) 365 (by norm_num)
  set yoe := (doe - q1 + q2 - q3).ediv 365 with hyoe
  have hF := ediv_pair yoe 4 (by norm_num)
  have hG := ediv_pair yoe 100 (by norm_num)
  set a4 := yoe.ediv 4 with ha4
  set a100 := yoe.ediv 100 with ha100
  set doy := doe - (365 * yoe + a4 - a100) with hdoy
  have hH := ediv_pair (5 * doy + 2) 153 (by norm_num)
  set mp := (5 * doy + 2).ediv 153 with hmp
  have hI := ediv_pair (153 * mp + 2) 5 (by norm_num)
  have hdoe0 : 0 ≤ doe ∧ doe < 146097 := by omega
  have hcen := central_bounds doe q1 q2 q3 yoe a4 a100 hdoe0.1 hdoe0.2 hB hC hD hE hF hG
  have hmpb : 0 ≤ mp ∧ mp ≤ 11 := by omega
  have hera45 : 4 ≤ era ∧ era ≤ 5 := by omega
  clear hB hC hD hF hG
  split_ifs <;> omega

theorem digitChar_inj : ∀ a < 10, ∀ b < 10, Nat.digitChar a = Nat.digitChar b → a = b := by
  decide

theorem digitChar_lt10_ne_pipe : ∀ a < 10, Nat.digitChar a ≠ '|' := by decide

theorem mod10_lt (a : Nat) : a % 10 < 10 := Nat.mod_lt _ (by norm_num)

theorem pad2_inj (a b : Nat) (ha : a < 100) (hb : b < 100) (h : pad2 a = pad2 b) : a = b := by
  simp only [pad2, List.cons.injEq, and_true] at h
  obtain ⟨e1, e2⟩ := h
  have f1 := digitChar_inj _ (mod10_lt _) _ (mod10_lt _) e1
  have f2 := digitChar_inj _ (mod10_lt _) _ (mod10_lt _) e2
  omega

theorem pad4_inj (a b : Nat) (ha : a < 10000) (hb : b < 10000) (h : pad4 a = pad4 b) : a = b := by
  simp only [pad4, List.cons.injEq, and_true] at h
  obtain ⟨e1, e2, e3, e4⟩ := h
  have f1 := digitChar_inj _ (mod10_lt _) _ (mod10_lt _) e1
  have f2 := digitChar_inj _ (mod10_lt _) _ (mod10_lt _) e2
  have f3 := digitChar_inj _ (mod10_lt _) _ (mod10_lt _) e3
  have f4 := digitChar_inj _ (mod10_lt _) _ (mod10_lt _) e4
  omega

theorem iso_pattern_inj (y1 m1 d1 hh1 mi1 s1 y2 m2 d2 hh2 mi2 s2 : Nat) (o1 o2 : Bool)
    (hy1 : y1 < 10000) (hy2 : y2 < 10000)
    (hm1 : m1 < 100) (hm2 : m2 < 100) (hd1 : d1 < 100) (hd2 : d2 < 100)
    (hhh1 : hh1 < 100) (hhh2 : hh2 < 100) (hmi1 : mi1 < 100) (hmi2 : mi2 < 100)
    (hs1 : s1 < 100) (hs2 : s2 < 100)
    (h : pad4 y1 ++ '-' :: pad2 m1 ++ '-' :: pad2 d1 ++ 'T' :: pad2 hh1 ++ ':' :: pad2 mi1 ++
        ':' :: pad2 s1 ++ (if o1 then ['+', '0', '2', ':', '0', '0'] else ['+', '0', '1', ':', '0', '0']) =
      pad4 y2 ++ '-' :: pad2 m2 ++ '-' :: pad2 d2 ++ 'T' :: pad2 hh2 ++ ':' :: pad2 mi2 ++
        ':' :: pad2 s2 ++ (if o2 then ['+', '0', '2', ':', '0', '0'] else ['+', '0', '1', ':', '0', '0'])) :
    y1 = y2 ∧ m1 = m2 ∧ d1 = d2 ∧ hh1 = hh2 ∧ mi1 = mi2 ∧ s1 = s2 ∧ o1 = o2 := by
  obtain ⟨h, ho⟩ := List.append_inj' h (by cases o1 <;> cases o2 <;> rfl)
  obtain ⟨h, hss⟩ := List.append_inj' h rfl
  rw [List.cons.injEq] at hss
  obtain ⟨h, hmi⟩ := List.append_inj' h rfl
  rw [List.cons.injEq] at hmi
  obtain ⟨h, hhh⟩ := List.append_inj' h rfl
  rw [List.cons.injEq] at hhh
  obtain ⟨h, hd⟩ := List.append_inj' h rfl
  rw [List.cons.injEq] at hd
  obtain ⟨hy, hm⟩ := List.append_inj' h rfl
  rw [List.cons.injEq] at hm
  refine ⟨pad4_inj _ _ hy1 hy2 hy, pad2_inj _ _ hm1 hm2 hm.2, pad2_inj _ _ hd1 hd2 hd.2,
    pad2_inj _ _ hhh1 hhh2 hhh.2, pad2_inj _ _ hmi1 hmi2 hmi.2, pad2_inj _ _ hs1 hs2 hss.2, ?_⟩
  cases o1 <;> cases o2 <;> simp_all

set_option maxHeartbeats 2000000 in
theorem isoChars_inj (t1 t2 : Int) (ht1 : tsRange t1) (ht2 : tsRange t2)
    (h : isoChars t1 = isoChars t2) : t1 = t2 := by
  obtain ⟨h1a, h1b⟩ := ht1
  obtain ⟨h2a, h2b⟩ := ht2
  have ho1 : offsetAt t1 = 3600 ∨ offsetAt t1 = 7200 := by
    unfold offsetAt; split <;> simp
  have ho2 : offsetAt t2 = 3600 ∨ offsetAt t2 = 7200 := by
    unfold offsetAt; split <;> simp
  have hd1 : 86400 * ((t1 + offsetAt t1).ediv 86400) + (t1 + offsetAt t1).emod 86400 =
      t1 + offsetAt t1 := Int.ediv_add_emod _ _
  have hd2 : 86400 * ((t2 + offsetAt t2).ediv 86400) + (t2 + offsetAt t2).emod 86400 =
      t2 + offsetAt t2 := Int.ediv_add_emod _ _
  have hr1 : 0 ≤ (t1 + offsetAt t1).emod 86400 := Int.emod_nonneg _ (by norm_num)
  have hr2 : 0 ≤ (t2 + offsetAt t2).emod 86400 := Int.emod_nonneg _ (by norm_num)
  have hr1b : (t1 + offsetAt t1).emod 86400 < 86400 := Int.emod_lt_of_pos _ (by norm_num)
  have hr2b : (t2 + offsetAt t2).emod 86400 < 86400 := Int.emod_lt_of_pos _ (by norm_num)
  have hz1 : 0 ≤ (t1 + offsetAt t1).ediv 86400 ∧ (t1 + offsetAt t1).ediv 86400 ≤ 106500 := by omega
  have hz2 : 0 ≤ (t2 + offsetAt t2).ediv 86400 ∧ (t2 + offsetAt t2).ediv 86400 ≤ 106500 := by omega
  have hc1 := civil_field_bounds _ hz1.1 hz1.2
  have hc2 := civil_field_bounds _ hz2.1 hz2.2
  simp only [isoChars] at h
  have key := iso_pattern_inj _ _ _ _ _ _ _ _ _ _ _ _ _ _
    (by omega) (by omega) (by omega) (by omega) (by omega) (by omega)
    (by omega) (by omega) (by omega) (by omega) (by omega) (by omega) h
  obtain ⟨ky, km, kd, khh, kmi, kss, ko⟩ := key
  have hoeq : offsetAt t1 = offsetAt t2 := by
    rcases ho1 with e1 | e1 <;> rcases ho2 with e2 | e2 <;> rw [e1, e2] at ko ⊢ <;> simp_all
  have hciv : civilFromDays ((t1 + offsetAt t1).ediv 86400) =
      civilFromDays ((t2 + offsetAt t2).ediv 86400) := by
    rw [Prod.ext_iff, Prod.ext_iff]
    refine ⟨by omega, by omega, by omega⟩
  have hzeq : (t1 + offsetAt t1).ediv 86400 = (t2 + offsetAt t2).ediv 86400 := by
    have r1 := civil_roundtrip ((t1 + offsetAt t1).ediv 86400)
    have r2 := civil_roundtrip ((t2 + offsetAt t2).ediv 86400)
    rw [hciv] at r1
    omega
  omega

theorem pipe_notin_pad2 (n : Nat) : '|' ∉ pad2 n := by
  intro h
  simp only [pad2, List.mem_cons, List.not_mem_nil, or_false] at h
  rcases h with h | h <;> exact digitChar_lt10_ne_pipe _ (mod10_lt _) h.symm

theorem pipe_notin_pad4 (n : Nat) : '|' ∉ pad4 n := by
  intro h
  simp only [pad4, List.mem_cons, List.not_mem_nil, or_false] at h
  rcases h with h | h | h | h <;> exact digitChar_lt10_ne_pipe _ (mod10_lt _) h.symm

theorem pipe_notin_iso (t : Int) : '|' ∉ isoChars t := by
  intro hmem
  simp only [isoChars] at hmem
  split at hmem <;>
  · rcases List.mem_append.mp hmem with h6 | hfin
    · rcases List.mem_append.mp h6 with h5 | hcs
      · rcases List.mem_append.mp h5 with h4 | hcmi
        · rcases List.mem_append.mp h4 with h3 | hchh
          · rcases List.mem_append.mp h3 with h2 | hcd
            · rcases List.mem_append.mp h2 with h1 | hcm
              · exact pipe_notin_pad4 _ h1
              · rcases List.mem_cons.mp hcm with e | hp
                · exact absurd e (by decide)
                · exact pipe_notin_pad2 _ hp
            · rcases List.mem_cons.mp hcd with e | hp
              · exact absurd e (by decide)
              · exact pipe_notin_pad2 _ hp
          · rcases List.mem_cons.mp hchh with e | hp
            · exact absurd e (by decide)
            · exact pipe_notin_pad2 _ hp
        · rcases List.mem_cons.mp hcmi with e | hp
          · exact absurd e (by decide)
          · exact pipe_notin_pad2 _ hp
      · rcases List.mem_cons.mp hcs with e | hp
        · exact absurd e (by decide)
        · exact pipe_notin_pad2 _ hp
    · exact absurd hfin (by decide)

theorem append_pivot_inj {c : Char} : ∀ (a a2 b b2 : List Char), c ∉ a → c ∉ a2 →
    a ++ c :: b = a2 ++ c :: b2 → a = a2 ∧ b = b2 := by
  intro a
  induction a with
  | nil =>
    intro a2 b b2 _ ha2 h
    cases a2 with
    | nil => simpa using h
    | cons x xs =>
      simp only [List.nil_append, List.cons_append, List.cons.injEq] at h
      exfalso
      apply ha2
      rw [← h.1]
      exact List.mem_cons_self c _
  | cons x xs ih =>
    intro a2 b b2 ha ha2 h
    cases a2 with
    | nil =>
      simp only [List.cons_append, List.nil_append, List.cons.injEq] at h
      exfalso
      apply ha
      rw [h.1]
      exact List.mem_cons_self c _
    | cons y ys =>
      simp only [List.cons_append, List.cons.injEq] at h
      have hr := ih ys b b2 (fun hm => ha (List.mem_cons_of_mem _ hm))
        (fun hm => ha2 (List.mem_cons_of_mem _ hm)) h.2
      exact ⟨by rw [h.1, hr.1], hr.2⟩

theorem str_data_append (s t : String) : (s ++ t).data = s.data ++ t.data := by
  cases s; cases t; rfl

theorem str_ext {s t : String} (h : s.data = t.data) : s = t := by
  cases s; cases t; exact congrArg String.mk h

theorem fingerprint_base_data (r : CanonicalRow) :
    (fingerprint_base r).data =
      isoChars r.Von ++ '|' :: (isoChars r.Bis ++ '|' :: (r.Raum.data ++ '|' :: r.Standort.data)) := by
  simp [fingerprint_base, isoformat, str_data_append, List.append_assoc]

theorem fingerprint_base_inj (r1 r2 : CanonicalRow)
    (hv1 : tsRange r1.Von) (hb1 : tsRange r1.Bis) (hv2 : tsRange r2.Von) (hb2 : tsRange r2.Bis)
    (hr1 : '|' ∉ r1.Raum.data) (hr2 : '|' ∉ r2.Raum.data)
    (hs1 : '|' ∉ r1.Standort.data) (hs2 : '|' ∉ r2.Standort.data)
    (h : fingerprint_base r1 = fingerprint_base r2) :
    r1.Von = r2.Von ∧ r1.Bis = r2.Bis ∧ r1.Raum = r2.Raum ∧ r1.Standort = r2.Standort := by
  have hd := congrArg String.data h
  rw [fingerprint_base_data, fingerprint_base_data] at hd
  have p1 := append_pivot_inj _ _ _ _ (pipe_notin_iso _) (pipe_notin_iso _) hd
  have hVon := isoChars_inj _ _ hv1 hv2 p1.1
  have p2 := append_pivot_inj _ _ _ _ (pipe_notin_iso _) (pipe_notin_iso _) p1.2
  have hBis := isoChars_inj _ _ hb1 hb2 p2.1
  have p3 := append_pivot_inj _ _ _ _ hr1 hr2 p2.2
  exact ⟨hVon, hBis, str_ext p3.1, str_ext p3.2⟩

/-! ### Push and build lemmas -/

theorem push_go_ok (rows : List CanonicalRow) :
    ∀ (i nid : Nat) (evs : List GEvent) (log : List String),
    push_go (fun _ => false) i nid evs log rows =
      .ok (evs ++ build_events nid rows, log ++ rows.map fingerprint) := by
  induction rows with
  | nil => intro i nid evs log; simp [push_go, build_events]
  | cons r rs ih =>
    intro i nid evs log
    simp only [push_go, build_events, Bool.false_eq_true, if_false, List.map_cons]
    rw [ih]
    simp

theorem mem_build (rows : List CanonicalRow) :
    ∀ (nid : Nat) (e : GEvent), e ∈ build_events nid rows → ∃ r ∈ rows, ∃ k, e = mkEvent k r := by
  induction rows with
  | nil => intro nid e h; simp [build_events] at h
  | cons r rs ih =>
    intro nid e h
    rcases List.mem_cons.mp h with h | h
    · exact ⟨r, by simp, nid, h⟩
    · obtain ⟨r2, hr2, k, hk⟩ := ih (nid + 1) e h
      exact ⟨r2, by simp [hr2], k, hk⟩

theorem build_events_fp (rows : List CanonicalRow) :
    ∀ nid : Nat, (build_events nid rows).map (·.fp) = rows.map fingerprint := by
  induction rows with
  | nil => intro nid; rfl
  | cons r rs ih => intro nid; simp [build_events, mkEvent, ih]

theorem build_events_length (rows : List CanonicalRow) :
    ∀ nid : Nat, (build_events nid rows).length = rows.length := by
  induction rows with
  | nil => intro nid; rfl
  | cons r rs ih => intro nid; simp [build_events, ih]

theorem delete_all_built (now : Int) (rows : List CanonicalRow) (nid : Nat)
    (h : ∀ r ∈ rows, now < r.Bis ∧ r.Von < now + 8 * 86400) :
    (delete_future_own_events now 8 (build_events nid rows)).2 =
      (build_events nid rows).map (·.eid) ∧
    (delete_future_own_events now 8 (build_events nid rows)).1 = [] := by
  have hfetch : fetch_window now 8 (build_events nid rows) = build_events nid rows := by
    unfold fetch_window
    rw [List.filter_eq_self]
    intro e he
    obtain ⟨r, hr, k, hk⟩ := mem_build rows nid e he
    have := h r hr
    subst hk
    simp only [mkEvent, Bool.and_eq_true, decide_eq_true_eq]
    omega
  have htag : (build_events nid rows).filter (fun e => e.src == some SOURCE_TAG) =
      build_events nid rows := by
    rw [List.filter_eq_self]
    intro e he
    obtain ⟨r, hr, k, hk⟩ := mem_build rows nid e he
    subst hk
    simp [mkEvent]
  constructor
  · simp [delete_future_own_events, hfetch, htag]
  · simp only [delete_future_own_events, hfetch, htag]
    rw [List.filter_eq_nil_iff]
    intro e he
    simp only [Bool.not_eq_true', Bool.not_eq_false]
    exact List.elem_iff.mpr (List.mem_map_of_mem _ he)

/-! ### Claim theorems -/

set_option maxRecDepth 40000 in
/-- C1 (counterexample): with one machine-tagged remote event whose fingerprint
    equals the single target row's fingerprint (so the fingerprint is in the
    intersection of existing and target), the run still issues a delete request
    for that event (and a create for the same fingerprint) — refuting "every
    event whose fingerprint is present before and after the run is never
    touched by any request". -/
theorem C1_counterexample :
    ev_c1.fp = fingerprint row_c1 ∧
    (sync_run now_c1 10 [ev_c1] [row_c1]).2.2 = [fingerprint row_c1] ∧
    (sync_run now_c1 10 [ev_c1] [row_c1]).2.1 = [ev_c1.eid] := by
  refine ⟨rfl, by decide, by decide⟩

/-- C1 (amended): the reconciler does not compute a set difference: one run
    issues delete requests for exactly the machine-tagged events overlapping
    the horizon — regardless of their fingerprints — and create requests for
    exactly the fingerprints of all target rows — regardless of the existing
    events; an event whose fingerprint is present before and after the run is
    thus deleted and recreated rather than left untouched. -/
theorem C1_amended_thm (now : Int) (nid : Nat) (evs : List GEvent) (rows : List CanonicalRow) :
    (sync_run now nid evs rows).2.1 =
      ((fetch_window now 8 evs).filter (fun e => e.src == some SOURCE_TAG)).map (·.eid) ∧
    (sync_run now nid evs rows).2.2 = rows.map fingerprint := by
  simp only [sync_run, push_events, delete_future_own_events, push_go_ok]
  simp

theorem sync_run_eval (now : Int) (nid : Nat) (evs : List GEvent) (rows : List CanonicalRow) :
    sync_run now nid evs rows =
      ((delete_future_own_events now 8 evs).1 ++ build_events nid rows,
       (delete_future_own_events now 8 evs).2, rows.map fingerprint) := by
  simp [sync_run, push_events, push_go_ok]

set_option maxRecDepth 40000 in
/-- C2 (counterexample): one row synced to an empty calendar, then synced again
    with the identical row: the second run issues one delete request and one
    create request, not zero of each. -/
theorem C2_counterexample :
    ((sync_run now_c2 100 (sync_run now_c2 0 [] [row_c2]).1 [row_c2]).2.1).length = 1 ∧
    ((sync_run now_c2 100 (sync_run now_c2 0 [] [row_c2]).1 [row_c2]).2.2).length = 1 := by
  exact ⟨by decide, by decide⟩

/-- C2 (amended): re-running sync with identical source rows leaves the remote
    calendar's fingerprint multiset unchanged (the end state is idempotent),
    but the second run performs exactly one delete per event created by the
    first run and one create per row — `n` deletes and `n` creates for `n`
    in-horizon rows, not zero operations (zero only when there are no rows). -/
theorem C2_amended_thm (now : Int) (rows : List CanonicalRow) (nid nid2 : Nat)
    (h : ∀ r ∈ rows, now < r.Bis ∧ r.Von < now + 8 * 86400) :
    (sync_run now nid2 (sync_run now nid [] rows).1 rows).2.1.length = rows.length ∧
    (sync_run now nid2 (sync_run now nid [] rows).1 rows).2.2 = rows.map fingerprint ∧
    (sync_run now nid2 (sync_run now nid [] rows).1 rows).1.map (·.fp) =
      (sync_run now nid [] rows).1.map (·.fp) := by
  have h1 : (sync_run now nid [] rows).1 = build_events nid rows := by
    rw [sync_run_eval]
    simp [delete_future_own_events, fetch_window]
  obtain ⟨hd2, hd1⟩ := delete_all_built now rows nid h
  rw [h1, sync_run_eval]
  refine ⟨?_, rfl, ?_⟩
  · simp [hd2, build_events_length]
  · simp [hd1, hd2, build_events_fp]

/-- C2 (witness): the amended theorem applied to the concrete one-row input. -/
theorem C2_witness :
    (∀ r ∈ [row_c2], now_c2 < r.Bis ∧ r.Von < now_c2 + 8 * 86400) ∧
    ((sync_run now_c2 100 (sync_run now_c2 0 [] [row_c2]).1 [row_c2]).2.1.length =
        [row_c2].length ∧
      (sync_run now_c2 100 (sync_run now_c2 0 [] [row_c2]).1 [row_c2]).2.2 =
        [row_c2].map fingerprint ∧
      (sync_run now_c2 100 (sync_run now_c2 0 [] [row_c2]).1 [row_c2]).1.map (·.fp) =
        (sync_run now_c2 0 [] [row_c2]).1.map (·.fp)) :=
  ⟨by decide, C2_amended_thm now_c2 [row_c2] 0 100 (by decide)⟩

theorem push_go_first_fail (rows : List CanonicalRow) :
    ∀ (fail : Nat → Bool) (k i nid : Nat) (evs : List GEvent) (log : List String),
    k < rows.length → (∀ j, j < k → fail (i + j) = false) → fail (i + k) = true →
    push_go fail i nid evs log rows =
      .error (evs ++ build_events nid (rows.take k),
        log ++ (rows.take (k + 1)).map fingerprint) := by
  induction rows with
  | nil =>
    intro fail k i nid evs log hk
    exact absurd hk (by simp)
  | cons r rs ih =>
    intro fail k i nid evs log hk hb hf
    cases k with
    | zero =>
      have h0 : fail i = true := by simpa using hf
      simp [push_go, h0, build_events]
    | succ k2 =>
      have h0 : fail i = false := by simpa using hb 0 (by omega)
      have hb2 : ∀ j, j < k2 → fail (i + 1 + j) = false := by
        intro j hj
        have := hb (j + 1) (by omega)
        rw [show i + 1 + j = i + (j + 1) from by omega]
        exact this
      have hf2 : fail (i + 1 + k2) = true := by
        rw [show i + 1 + k2 = i + (k2 + 1) from by omega]
        exact hf
      simp only [push_go, h0, Bool.false_eq_true, if_false]
      rw [ih fail k2 (i + 1) (nid + 1) (evs ++ [mkEvent nid r]) (log ++ [fingerprint r])
        (by simpa using hk) hb2 hf2]
      simp [build_events]

theorem delete_go_ok (ids : List Nat) : ∀ (i : Nat) (evs : List GEvent) (log : List Nat),
    delete_go (fun _ => false) i evs log ids = .ok (remove_ids ids evs, log ++ ids) := by
  induction ids with
  | nil => intro i evs log; simp [delete_go, remove_ids]
  | cons id rest ih =>
    intro i evs log
    simp only [delete_go, Bool.false_eq_true, if_false]
    rw [ih]
    simp [remove_ids]

theorem delete_go_first_fail (ids : List Nat) :
    ∀ (fail : Nat → Bool) (k i : Nat) (evs : List GEvent) (log : List Nat),
    k < ids.length → (∀ j, j < k → fail (i + j) = false) → fail (i + k) = true →
    delete_go fail i evs log ids =
      .error (remove_ids (ids.take k) evs, log ++ ids.take (k + 1)) := by
  induction ids with
  | nil =>
    intro fail k i evs log hk
    exact absurd hk (by simp)
  | cons id rest ih =>
    intro fail k i evs log hk hb hf
    cases k with
    | zero =>
      have h0 : fail i = true := by simpa using hf
      simp [delete_go, h0, remove_ids]
    | succ k2 =>
      have h0 : fail i = false := by simpa using hb 0 (by omega)
      have hb2 : ∀ j, j < k2 → fail (i + 1 + j) = false := by
        intro j hj
        have := hb (j + 1) (by omega)
        rw [show i + 1 + j = i + (j + 1) from by omega]
        exact this
      have hf2 : fail (i + 1 + k2) = true := by
        rw [show i + 1 + k2 = i + (k2 + 1) from by omega]
        exact hf
      simp only [delete_go, h0, Bool.false_eq_true, if_false]
      rw [ih fail k2 (i + 1) (evs.filter (fun e => !(e.eid == id))) (log ++ [id])
        (by simpa using hk) hb2 hf2]
      simp [remove_ids]

theorem remove_ids_eq_filter (ids : List Nat) : ∀ evs : List GEvent,
    remove_ids ids evs = evs.filter (fun e => !(ids.contains e.eid)) := by
  induction ids with
  | nil => intro evs; simp [remove_ids]
  | cons id rest ih =>
    intro evs
    have hstep : remove_ids (id :: rest) evs =
        remove_ids rest (evs.filter (fun e => !(e.eid == id))) := rfl
    rw [hstep, ih, List.filter_filter]
    congr 1
    funext e
    cases h : (e.eid == id) with
    | false =>
      simp [h]
      intro _
      exact beq_eq_false_iff_ne.mp h
    | true =>
      simp [h]
      intro hne
      exact absurd (beq_iff_eq.mp h) hne

set_option maxRecDepth 40000 in
/-- C5 (counterexample): two rows, the first create request fails: the run
    aborts with an exception after issuing only the first request — the second
    row's (distinct) fingerprint is never requested, refuting "a failure of one
    individual request does not abort the remaining requests". -/
theorem C5_counterexample :
    push_events (fun i => i == 0) 0 [] [row_c5a, row_c5b] =
      .error ([], [fingerprint row_c5a]) ∧
    fingerprint row_c5b ≠ fingerprint row_c5a := by
  exact ⟨rfl, by decide⟩

/-- C5 (amended): create and delete requests are issued strictly one at a
    time, with no fixed-size batching, no inter-batch pause and no per-request
    outcome tracking. If every request succeeds, all rows are pushed (one
    create per row) and all collected ids are deleted (one delete per id).
    Otherwise the first failing request — at any position, create or delete —
    raises, aborting all remaining requests of the run: exactly the requests up
    to and including the failing one are issued, the effects of the requests
    before the failure persist (inserted events / removed events), and no
    failure count is reported. -/
theorem C5_amended_thm :
    (∀ (nid : Nat) (evs : List GEvent) (rows : List CanonicalRow),
      push_events (fun _ => false) nid evs rows =
        .ok (evs ++ build_events nid rows, rows.map fingerprint)) ∧
    (∀ (fail : Nat → Bool) (nid k : Nat) (evs : List GEvent) (rows : List CanonicalRow),
      k < rows.length → (∀ j, j < k → fail j = false) → fail k = true →
      push_events fail nid evs rows =
        .error (evs ++ build_events nid (rows.take k),
          (rows.take (k + 1)).map fingerprint)) ∧
    (∀ (now hd : Int) (evs : List GEvent),
      delete_future_own_events_f (fun _ => false) now hd evs =
        .ok (delete_future_own_events now hd evs)) ∧
    (∀ (fail : Nat → Bool) (k : Nat) (now hd : Int) (evs : List GEvent),
      k < (delete_future_own_events now hd evs).2.length →
      (∀ j, j < k → fail j = false) → fail k = true →
      delete_future_own_events_f fail now hd evs =
        .error (remove_ids ((delete_future_own_events now hd evs).2.take k) evs,
          (delete_future_own_events now hd evs).2.take (k + 1))) := by
  refine ⟨?_, ?_, ?_, ?_⟩
  · intro nid evs rows
    simp only [push_events]
    rw [push_go_ok]
    simp
  · intro fail nid k evs rows hk hb hf
    simp only [push_events]
    rw [push_go_first_fail rows fail k 0 nid evs [] hk
      (fun j hj => by simpa using hb j hj) (by simpa using hf)]
    simp
  · intro now hd evs
    simp only [delete_future_own_events_f]
    rw [delete_go_ok]
    simp only [delete_future_own_events, List.nil_append]
    rw [remove_ids_eq_filter]
  · intro fail k now hd evs hk hb hf
    have hk2 : k < (((fetch_window now hd evs).filter
        (fun e => e.src == some SOURCE_TAG)).map (·.eid)).length := by
      simpa [delete_future_own_events] using hk
    simp only [delete_future_own_events_f]
    rw [delete_go_first_fail _ fail k 0 evs [] hk2
      (fun j hj => by simpa using hb j hj) (by simpa using hf)]
    simp [delete_future_own_events]

/-- C5 (witness): the amended theorem at concrete inputs — an all-success
    push, a push whose second create request fails (the first row's event
    persists, the third row is never requested), an all-success delete run,
    and a delete run whose second delete request fails (the first event is
    already removed, the third id is never requested). -/
theorem C5_witness :
    (push_events (fun _ => false) 3 [] [row_c5a] =
      .ok ([] ++ build_events 3 [row_c5a], [row_c5a].map fingerprint)) ∧
    (1 < ([row_c5a, row_c5b, row_c5c] : List CanonicalRow).length ∧
      (fun i => i == 1) 1 = true ∧
      push_events (fun i => i == 1) 0 [] [row_c5a, row_c5b, row_c5c] =
        .error ([] ++ build_events 0 ([row_c5a, row_c5b, row_c5c].take 1),
          ([row_c5a, row_c5b, row_c5c].take 2).map fingerprint)) ∧
    (delete_future_own_events_f (fun _ => false) 0 8 [ev_c5a, ev_c5b, ev_c5c] =
      .ok (delete_future_own_events 0 8 [ev_c5a, ev_c5b, ev_c5c])) ∧
    (1 < (delete_future_own_events 0 8 [ev_c5a, ev_c5b, ev_c5c]).2.length ∧
      delete_future_own_events_f (fun i => i == 1) 0 8 [ev_c5a, ev_c5b, ev_c5c] =
        .error (remove_ids ((delete_future_own_events 0 8 [ev_c5a, ev_c5b, ev_c5c]).2.take 1)
            [ev_c5a, ev_c5b, ev_c5c],
          (delete_future_own_events 0 8 [ev_c5a, ev_c5b, ev_c5c]).2.take 2)) :=
  ⟨C5_amended_thm.1 3 [] [row_c5a],
   ⟨by decide, by decide,
    C5_amended_thm.2.1 (fun i => i == 1) 0 1 [] [row_c5a, row_c5b, row_c5c]
      (by decide) (by decide) (by decide)⟩,
   C5_amended_thm.2.2.1 0 8 [ev_c5a, ev_c5b, ev_c5c],
   ⟨by decide,
    C5_amended_thm.2.2.2 (fun i => i == 1) 1 0 8 [ev_c5a, ev_c5b, ev_c5c]
      (by decide) (by decide) (by decide)⟩⟩

/-- C9: every delete request issued by `delete_future_own_events` targets an
    event carrying this system's source tag in its private metadata; an event
    without the matching tag never appears in the delete set. -/
theorem C9_thm (now horizon : Int) (evs : List GEvent) (i : Nat)
    (h : i ∈ (delete_future_own_events now horizon evs).2) :
    ∃ e, e ∈ evs ∧ e.eid = i ∧ e.src = some SOURCE_TAG := by
  simp only [delete_future_own_events, fetch_window] at h
  obtain ⟨e, he, heq⟩ := List.mem_map.mp h
  have h2 := List.mem_filter.mp he
  have h3 := List.mem_filter.mp h2.1
  refine ⟨e, h3.1, heq, ?_⟩
  simpa using h2.2

/-- C9 (witness): the theorem applied to a concrete tagged in-horizon event. -/
theorem C9_witness :
    (1 ∈ (delete_future_own_events 0 8 [ev_c9]).2) ∧
    (∃ e, e ∈ [ev_c9] ∧ e.eid = 1 ∧ e.src = some SOURCE_TAG) :=
  ⟨by decide, C9_thm 0 8 [ev_c9] 1 (by decide)⟩

set_option maxRecDepth 40000 in
/-- C3 (counterexample): two rows that differ in both room_label and
    location_label but serialize to the same base string because the labels
    embed the delimiter '|': their fingerprints are identical although fields
    differ, and the collision is in the serialization, not a hash collision. -/
theorem C3_counterexample :
    row_c3a.Raum ≠ row_c3b.Raum ∧ row_c3a.Standort ≠ row_c3b.Standort ∧
    fingerprint_base row_c3a = fingerprint_base row_c3b ∧
    fingerprint row_c3a = fingerprint row_c3b := by
  exact ⟨by decide, by decide, by decide, by decide⟩

/-- C3 (amended): rows with identical (start, end, room, location) always get
    identical fingerprints; and rows differing in at least one of the four
    fields serialize to different base strings — hence different digests up to
    SHA-1 collision — provided neither room_label nor location_label contains
    the delimiter '|' and the instants are in the pandas-representable range. -/
theorem C3_amended_thm :
    (∀ r1 r2 : CanonicalRow, r1.Von = r2.Von → r1.Bis = r2.Bis → r1.Raum = r2.Raum →
      r1.Standort = r2.Standort → fingerprint r1 = fingerprint r2) ∧
    (∀ r1 r2 : CanonicalRow, tsRange r1.Von → tsRange r1.Bis → tsRange r2.Von →
      tsRange r2.Bis → '|' ∉ r1.Raum.data → '|' ∉ r2.Raum.data →
      '|' ∉ r1.Standort.data → '|' ∉ r2.Standort.data →
      fingerprint_base r1 = fingerprint_base r2 →
      r1.Von = r2.Von ∧ r1.Bis = r2.Bis ∧ r1.Raum = r2.Raum ∧ r1.Standort = r2.Standort) := by
  constructor
  · intro r1 r2 hv hb hr hs
    unfold fingerprint fingerprint_base
    rw [hv, hb, hr, hs]
  · exact fun r1 r2 => fingerprint_base_inj r1 r2

/-- C3 (witness): both conjuncts of the amended theorem applied at a concrete
    in-range, delimiter-free row. -/
theorem C3_witness :
    (row_c3w.Von = row_c3w.Von ∧ fingerprint row_c3w = fingerprint row_c3w) ∧
    (tsRange row_c3w.Von ∧ '|' ∉ row_c3w.Raum.data ∧
      (row_c3w.Von = row_c3w.Von ∧ row_c3w.Bis = row_c3w.Bis ∧ row_c3w.Raum = row_c3w.Raum ∧
        row_c3w.Standort = row_c3w.Standort)) :=
  ⟨⟨rfl, C3_amended_thm.1 row_c3w row_c3w rfl rfl rfl rfl⟩,
   ⟨by decide, by decide,
    C3_amended_thm.2 row_c3w row_c3w (by decide) (by decide) (by decide) (by decide)
      (by decide) (by decide) (by decide) (by decide) rfl⟩⟩

/-- C10: the derived per-bucket calendar name equals the first 80 characters of
    base + " - " + bucket.strip(); hence it never exceeds 80 characters, and
    any two buckets whose derived strings agree on those first 80 characters
    map to the same calendar name. -/
theorem C10_thm :
    (∀ base bucket : String, calendar_name_for_bucket base bucket =
      pyTake 80 (base ++ " - " ++ ⟨pyStrip bucket.data⟩)) ∧
    (∀ base bucket : String, (calendar_name_for_bucket base bucket).length ≤ 80) ∧
    (∀ base b1 b2 : String,
      pyTake 80 (base ++ " - " ++ ⟨pyStrip b1.data⟩) =
        pyTake 80 (base ++ " - " ++ ⟨pyStrip b2.data⟩) →
      calendar_name_for_bucket base b1 = calendar_name_for_bucket base b2) := by
  refine ⟨fun _ _ => rfl, ?_, fun base b1 b2 h => h⟩
  intro base bucket
  show ((base ++ " - " ++ (⟨pyStrip bucket.data⟩ : String)).data.take 80).length ≤ 80
  rw [List.length_take]
  omega

/-- C10 (witness): two distinct buckets agreeing on the first 80 derived
    characters receive the same calendar name. -/
theorem C10_witness :
    (pyTake 80 ("Rooms" ++ " - " ++ ⟨pyStrip bucket_w1.data⟩) =
      pyTake 80 ("Rooms" ++ " - " ++ ⟨pyStrip bucket_w2.data⟩)) ∧
    bucket_w1 ≠ bucket_w2 ∧
    calendar_name_for_bucket "Rooms" bucket_w1 = calendar_name_for_bucket "Rooms" bucket_w2 :=
  ⟨by decide, by decide, C10_thm.2.2 "Rooms" bucket_w1 bucket_w2 (by decide)⟩

/-- C4: whenever the start-time, end-time or room role remains unresolved after
    the alias pass, the content pass and the positional fallback, normalization
    returns the empty canonical row-set for the batch; the embedded function is
    total, so no exception is raised (the source parses with errors="coerce"
    and returns an empty DataFrame from the same guard). -/
theorem C4_thm (P : ParseEnv) (ty tm td : Int) (df : DF)
    (h : (resolve_cols P (cleanDF df)).1 = none ∨ (resolve_cols P (cleanDF df)).2.1 = none ∨
      (resolve_cols P (cleanDF df)).2.2.1 = none) :
    normalize_to_room_times P ty tm td df = [] := by
  simp only [normalize_to_room_times]
  split
  · simp_all
  · rfl

/-- C4 (witness): the theorem applied to a concrete single-column batch on
    which no pass can resolve any required role. -/
theorem C4_witness :
    ((resolve_cols P0 (cleanDF df_c4)).1 = none ∨ (resolve_cols P0 (cleanDF df_c4)).2.1 = none ∨
      (resolve_cols P0 (cleanDF df_c4)).2.2.1 = none) ∧
    normalize_to_room_times P0 2025 1 1 df_c4 = [] :=
  ⟨Or.inl (by decide), C4_thm P0 2025 1 1 df_c4 (Or.inl (by decide))⟩

/-- C8: for a batch whose columns are exactly "Von", "Bis", "Raum", all three
    required roles resolve in the alias pass, the guard that would invoke
    content-based inference is false, and the resolution result is independent
    of the cell contents and of the parser/regex environment. -/
theorem C8_thm (P : ParseEnv) (rows : List (List String)) :
    content_invoked (cleanDF ⟨["Von", "Bis", "Raum"], rows⟩) = false ∧
    resolve_cols P (cleanDF ⟨["Von", "Bis", "Raum"], rows⟩) =
      (some "von", some "bis", some "raum", none) :=
  ⟨rfl, rfl⟩

set_option maxRecDepth 40000 in
/-- C6: evaluation at the failing input. A row spanning the Europe/Zurich DST
    fall-back (2025-10-26 10:00 to 2025-10-27 12:00; today = 2025-10-25): the
    chunker emits the 2025-10-26 06:00-22:00 band intersection twice and emits
    no row at all for 2025-10-27, instead of exactly one row per touched day as
    the claim states. On DST-free inputs (the claim's January example, third
    conjunct) it behaves exactly as claimed. -/
theorem C6_code_bug_eval :
    chunk_to_days_6_22 2025 10 25 [row_c6] = [slice_c6, slice_c6] ∧
    slice_c6b ∉ chunk_to_days_6_22 2025 10 25 [row_c6] ∧
    chunk_to_days_6_22 2025 1 1
        [⟨mkZurich 2025 1 1 20 0 0, mkZurich 2025 1 2 8 0 0, "A 101", "", "A 101"⟩] =
      [⟨mkZurich 2025 1 1 20 0 0, mkZurich 2025 1 1 22 0 0, "A 101", "", "A 101"⟩,
       ⟨mkZurich 2025 1 2 6 0 0, mkZurich 2025 1 2 8 0 0, "A 101", "", "A 101"⟩] := by
  exact ⟨by decide, by decide, by decide⟩

/-- C7: room-code extraction behaves exactly as the claim describes, and the
    claim's three examples hold. -/
theorem C7_thm :
    (∀ s : String, extract_room_code s = roomCodeClaim s) ∧
    extract_room_code "B 101 Seminarraum" = "B 101" ∧
    extract_room_code "205" = "205" ∧ extract_room_code "" = "" := by
  refine ⟨?_, by decide, by decide, by decide⟩
  intro s
  simp only [extract_room_code, roomCodeClaim]
  cases hse : (pyStrip s.data).isEmpty with
  | true =>
    have hnil : pyStrip s.data = [] := by
      cases hl : pyStrip s.data
      · rfl
      · rw [hl] at hse; simp [List.isEmpty] at hse
    simp [hse, hnil, pySplitWs, pySplitGo]
  | false =>
    simp only [hse, Bool.false_eq_true, if_false]
    cases hs0 : pySplitWs (pyStrip s.data) with
    | nil => rfl
    | cons t0 rest =>
      cases rest with
      | nil =>
        cases hd0 : hasDigitS t0 <;> simp [hd0]
      | cons t1 rest2 =>
        cases hd0 : hasDigitS t0 <;>
          simp [hd0, List.getD, Bool.and_assoc, Nat.le_add_left]
